import Mathlib

/-!
Verification of the Placeholder Forge image generator.

The repository is a client-side Vue tool that synthesizes placeholder
raster images.  It ships two variants of the page:

* `src/unnamed/part_000` (the variant with the RAM safeguard, the size
  inflator `inflateBlob`, and the `watch` clamp on `count`);
* `src/app/pages/index.vue` (the basic variant, without those).

Both variants share `pickSize`, `randInt`, the per-image generation body,
the cancellation loop, and `downloadZip`.  This file is a shallow
embedding of that logic:

* JavaScript numbers are modelled as `Nat`/`Int`/`ℚ` (all arithmetic the
  claims touch is exact in IEEE doubles);
* `Math.random()` draws are passed in explicitly as rationals `u` with
  `0 ≤ u < 1`, one structure of draws per loop iteration;
* browser primitives (canvas rendering, `fetch` of a data URL) are
  abstracted: the encoded image bytes of an iteration are part of that
  iteration's draw;
* the external libraries piexifjs and JSZip are not part of the
  repository; where a claim needs their behaviour it is modelled from
  the spec (marked `Modelled from the spec:` on the definition).
-/

namespace PlaceholderForge

/-- A byte blob (a `Blob` / `Uint8Array`), as its list of byte values. -/
abbrev Bytes := List Nat

/-- The two output formats offered by `formatItems` (`"jpg"` / `"png"`). -/
inductive Format where
  | jpg
  | png
deriving DecidableEq

/-- The file extension used in generated names (`format.value` itself). -/
def fmtExt : Format → String
  | Format.jpg => "jpg"
  | Format.png => "png"

/-- `MAX_RAM_BYTES = 500 * 1024 * 1024` (part_000 variant). -/
def MAX_RAM_BYTES : Nat := 500 * 1024 * 1024

/-- `landscapeSizes` preset list. -/
def landscapeSizes : List (Int × Int) :=
  [(1920, 1080), (1280, 720), (3840, 2160), (2560, 1440)]

/-- `portraitSizes` preset list. -/
def portraitSizes : List (Int × Int) :=
  [(1080, 1920), (720, 1280), (2160, 3840), (1440, 2560)]

/-- `targetSizeItems` values: Auto (0), 1 MB, 5 MB, 10 MB. -/
def targetSizeItems : List Nat :=
  [0, 1 * 1024 * 1024, 5 * 1024 * 1024, 10 * 1024 * 1024]

/-- `randInt = (min, max) => Math.floor(Math.random() * (max - min + 1)) + min`,
with the `Math.random()` draw `u` passed explicitly. -/
def randInt (mn mx : Int) (u : ℚ) : Int :=
  ⌊u * ((mx : ℚ) - (mn : ℚ) + 1)⌋ + mn

/-- `randomOffset = () => Math.floor(Math.random() * 101) - 50` (inside
`pickSize`), with the draw `u` passed explicitly. -/
def randomOffset (u : ℚ) : Int :=
  ⌊u * 101⌋ - 50

/-- The `Math.random()` draws consumed by one call of `pickSize`:
the landscape/portrait coin, the preset index draw, and the two offset
draws. -/
structure SizeDraw where
  uPick : ℚ
  uIdx : ℚ
  uOffW : ℚ
  uOffH : ℚ

/-- `pickSize`: if `randomSize`, choose the landscape presets when
`Math.random() > 0.5` else the portrait presets, index by
`Math.floor(Math.random() * length)`, and add an independent
`randomOffset()` to each dimension; otherwise return the explicit
`(width, height)`. -/
def pickSize (randomSize : Bool) (width height : Int) (d : SizeDraw) : Int × Int :=
  if randomSize then
    let sizes := if d.uPick > 1/2 then landscapeSizes else portraitSizes
    let base := sizes.getD (⌊d.uIdx * (sizes.length : ℚ)⌋).toNat (0, 0)
    (base.1 + randomOffset d.uOffW, base.2 + randomOffset d.uOffH)
  else
    (width, height)

/-- `inflateBlob(blob, targetBytes)` (part_000 variant): if the target is
falsy (0) or the blob is already at least that large, return the blob
unchanged; otherwise append `targetBytes - blob.size` zero bytes. -/
def inflateBlob (blob : Bytes) (targetBytes : Nat) : Bytes :=
  if targetBytes = 0 ∨ blob.length ≥ targetBytes then blob
  else blob ++ List.replicate (targetBytes - blob.length) 0

/-- `0 ≤ u < 1` gives `Math.floor(u * n)` a value in `[0, n)`. -/
lemma floor_unit_mul (u : ℚ) (n : Nat) (h0 : 0 ≤ u) (h1 : u < 1) (hn : 0 < n) :
    0 ≤ ⌊u * (n : ℚ)⌋ ∧ ⌊u * (n : ℚ)⌋ < (n : Int) := by
  constructor
  · exact Int.floor_nonneg.mpr (mul_nonneg h0 (by positivity))
  · apply Int.floor_lt.mpr
    have hnq : (0 : ℚ) < (n : ℚ) := by exact_mod_cast hn
    have := mul_lt_mul_of_pos_right h1 hnq
    simpa using this

/-- `randomOffset` draws lie in the symmetric range `[-50, 50]`. -/
lemma randomOffset_bounds (u : ℚ) (h0 : 0 ≤ u) (h1 : u < 1) :
    -50 ≤ randomOffset u ∧ randomOffset u ≤ 50 := by
  have h := floor_unit_mul u 101 h0 h1 (by norm_num)
  unfold randomOffset
  push_cast at h
  omega

/-- The preset entry indexed by a unit draw is a member of the preset list. -/
lemma getD_floor_mem (sizes : List (Int × Int)) (u : ℚ)
    (h0 : 0 ≤ u) (h1 : u < 1) (hlen : 0 < sizes.length) :
    sizes.getD (⌊u * (sizes.length : ℚ)⌋).toNat (0, 0) ∈ sizes := by
  have h := floor_unit_mul u sizes.length h0 h1 hlen
  have hm : (⌊u * (sizes.length : ℚ)⌋).toNat < sizes.length := by omega
  rw [List.getD_eq_getElem _ _ hm]
  exact List.getElem_mem hm

end PlaceholderForge

namespace PlaceholderForge

/-- C2: `inflateBlob` returns output of length `max L T`; for `T = 0` it
returns the input unchanged; and the output is always the original bytes
followed by zero padding only. -/
theorem C2_inflateBlob_padding (blob : Bytes) (T : Nat) :
    (inflateBlob blob T).length = max blob.length T ∧
    inflateBlob blob 0 = blob ∧
    inflateBlob blob T = blob ++ List.replicate (max blob.length T - blob.length) 0 := by
  refine ⟨?_, ?_, ?_⟩
  all_goals unfold inflateBlob
  · by_cases h : T = 0 ∨ blob.length ≥ T
    · have hmax : max blob.length T = blob.length := by
        rcases h with h | h
        · simp [h]
        · exact Nat.max_eq_left h
      simp [h, hmax]
    · have hlt : blob.length < T := by omega
      have hmax : max blob.length T = T := Nat.max_eq_right (Nat.le_of_lt hlt)
      simp only [if_neg h, hmax, List.length_append, List.length_replicate]
      omega
  · simp
  · by_cases h : T = 0 ∨ blob.length ≥ T
    · have hmax : max blob.length T - blob.length = 0 := by
        rcases h with h | h
        · simp [h]
        · omega
      simp [h, hmax]
    · have hlt : blob.length < T := by omega
      have hmax : max blob.length T - blob.length = T - blob.length :=
        by omega
      simp [if_neg h, hmax]

end PlaceholderForge


namespace PlaceholderForge

/-- The list `pickSize` draws its preset from, and the base it picks. -/
def chosenSizes (d : SizeDraw) : List (Int × Int) :=
  if d.uPick > 1/2 then landscapeSizes else portraitSizes

/-- The preset entry `pickSize` picks in random mode. -/
def chosenBase (d : SizeDraw) : Int × Int :=
  (chosenSizes d).getD (⌊d.uIdx * ((chosenSizes d).length : ℚ)⌋).toNat (0, 0)

/-- In random mode `pickSize` returns the chosen base plus the offsets. -/
lemma pickSize_true_eq (width height : Int) (d : SizeDraw) :
    pickSize true width height d
      = ((chosenBase d).1 + randomOffset d.uOffW,
         (chosenBase d).2 + randomOffset d.uOffH) := rfl

/-- The chosen base is a member of the chosen preset list. -/
lemma chosenBase_mem (d : SizeDraw) (h0 : 0 ≤ d.uIdx) (h1 : d.uIdx < 1) :
    chosenBase d ∈ chosenSizes d := by
  apply getD_floor_mem _ _ h0 h1
  unfold chosenSizes
  split <;> decide

/-- C6: `pickSize` in fixed mode with width 800 and height 600 returns
`(800, 600)`; in random mode, the returned pair is a preset base from the
chosen landscape or portrait list plus an independent `randomOffset` on
each dimension, so each dimension lies within its base ± 50. -/
theorem C6_pickSize_bounds (width height : Int) (d : SizeDraw)
    (hI0 : 0 ≤ d.uIdx) (hI1 : d.uIdx < 1)
    (hW0 : 0 ≤ d.uOffW) (hW1 : d.uOffW < 1)
    (hH0 : 0 ≤ d.uOffH) (hH1 : d.uOffH < 1) :
    pickSize false 800 600 d = (800, 600) ∧
    ∃ base ∈ chosenSizes d,
      pickSize true width height d
        = (base.1 + randomOffset d.uOffW, base.2 + randomOffset d.uOffH) ∧
      base.1 - 50 ≤ (pickSize true width height d).1 ∧
      (pickSize true width height d).1 ≤ base.1 + 50 ∧
      base.2 - 50 ≤ (pickSize true width height d).2 ∧
      (pickSize true width height d).2 ≤ base.2 + 50 := by
  have hoffW := randomOffset_bounds d.uOffW hW0 hW1
  have hoffH := randomOffset_bounds d.uOffH hH0 hH1
  refine ⟨rfl, chosenBase d, chosenBase_mem d hI0 hI1,
    pickSize_true_eq width height d, ?_, ?_, ?_, ?_⟩ <;>
    rw [pickSize_true_eq width height d] <;> simp <;> omega

end PlaceholderForge

namespace PlaceholderForge

/-- The randomized inputs consumed when one EXIF block is fabricated:
the faker strings and the four `Math.random()` draws feeding
`randInt(0, 90) + Math.random()` and `randInt(0, 180) + Math.random()`. -/
structure ExifDraw where
  makeName : String
  modelName : String
  dateTime : String
  uLat1 : ℚ
  uLat2 : ℚ
  uLon1 : ℚ
  uLon2 : ℚ

/-- The decimal latitude handed to the DMS encoder:
`randInt(0, 90) + Math.random()`. -/
def gpsLatitudeDeg (d : ExifDraw) : ℚ :=
  (randInt 0 90 d.uLat1 : ℚ) + d.uLat2

/-- The decimal longitude handed to the DMS encoder:
`randInt(0, 180) + Math.random()`. -/
def gpsLongitudeDeg (d : ExifDraw) : ℚ :=
  (randInt 0 180 d.uLon1 : ℚ) + d.uLon2

/-- Modelled from the spec: `piexif.GPSHelper.degToDmsRational` belongs to
the external piexifjs library, not to this repository.  The spec says the
decimal coordinate is "converted into the degrees/minutes/seconds rational
encoding required by the tagging format": whole degrees over 1, whole
minutes over 1, and centi-seconds over 100. -/
def degToDmsRational (deg : ℚ) : List (Int × Int) :=
  let degAbs := |deg|
  let minFloat := (degAbs - (⌊degAbs⌋ : ℚ)) * 60
  let secFloat := (minFloat - (⌊minFloat⌋ : ℚ)) * 60
  [(⌊degAbs⌋, 1), (⌊minFloat⌋, 1), (round (secFloat * 100), 100)]

/-- The EXIF block built in `generateImages` when the format is jpg and
the EXIF toggle is on: fabricated make/model, the fixed software tag, a
recent timestamp, and the north/east GPS pair in DMS rational form. -/
structure Exif where
  make : String
  model : String
  software : String
  dateTimeOriginal : String
  gpsLatitudeRef : String
  gpsLatitude : List (Int × Int)
  gpsLongitudeRef : String
  gpsLongitude : List (Int × Int)

/-- The `exifObj` literal from `generateImages`, with the random inputs
passed explicitly. -/
def mkExif (d : ExifDraw) : Exif :=
  { make := d.makeName
    model := d.modelName
    software := "Placeholder Forge"
    dateTimeOriginal := d.dateTime
    gpsLatitudeRef := "N"
    gpsLatitude := degToDmsRational (gpsLatitudeDeg d)
    gpsLongitudeRef := "E"
    gpsLongitude := degToDmsRational (gpsLongitudeDeg d) }

/-- `randInt mn mx u` lies in `[mn, mx]` for a unit draw `u`. -/
lemma randInt_bounds (mn mx : Int) (u : ℚ) (h0 : 0 ≤ u) (h1 : u < 1)
    (hle : mn ≤ mx) : mn ≤ randInt mn mx u ∧ randInt mn mx u ≤ mx := by
  have hn : 0 < (mx - mn + 1).toNat := by omega
  have h := floor_unit_mul u (mx - mn + 1).toNat h0 h1 hn
  have hcast : (((mx - mn + 1).toNat : Nat) : ℚ) = (mx : ℚ) - (mn : ℚ) + 1 := by
    have : ((mx - mn + 1).toNat : Int) = mx - mn + 1 := by omega
    exact_mod_cast this
  rw [hcast] at h
  unfold randInt
  omega

end PlaceholderForge

namespace PlaceholderForge

/-- C5 (amended): for every fabricated GPS pair, the latitude is an
integer degree part in `[0, 90]` plus a sub-degree fraction in `[0, 1)`,
hence lies in `[0, 91)` (it can exceed 90 by less than one degree), and
the longitude likewise lies in `[0, 181)`; both are handed to the DMS
rational encoder with refs `"N"` / `"E"`. -/
theorem C5_gps_ranges (d : ExifDraw)
    (hLat1 : 0 ≤ d.uLat1 ∧ d.uLat1 < 1) (hLat2 : 0 ≤ d.uLat2 ∧ d.uLat2 < 1)
    (hLon1 : 0 ≤ d.uLon1 ∧ d.uLon1 < 1) (hLon2 : 0 ≤ d.uLon2 ∧ d.uLon2 < 1) :
    (0 ≤ gpsLatitudeDeg d ∧ gpsLatitudeDeg d < 91) ∧
    (0 ≤ gpsLongitudeDeg d ∧ gpsLongitudeDeg d < 181) ∧
    (∃ n : Int, 0 ≤ n ∧ n ≤ 90 ∧ gpsLatitudeDeg d = (n : ℚ) + d.uLat2) ∧
    (∃ n : Int, 0 ≤ n ∧ n ≤ 180 ∧ gpsLongitudeDeg d = (n : ℚ) + d.uLon2) ∧
    (mkExif d).gpsLatitudeRef = "N" ∧
    (mkExif d).gpsLatitude = degToDmsRational (gpsLatitudeDeg d) ∧
    (mkExif d).gpsLongitudeRef = "E" ∧
    (mkExif d).gpsLongitude = degToDmsRational (gpsLongitudeDeg d) := by
  have hlat := randInt_bounds 0 90 d.uLat1 hLat1.1 hLat1.2 (by norm_num)
  have hlon := randInt_bounds 0 180 d.uLon1 hLon1.1 hLon1.2 (by norm_num)
  have hlatq : (0 : ℚ) ≤ (randInt 0 90 d.uLat1 : ℚ) ∧ (randInt 0 90 d.uLat1 : ℚ) ≤ 90 := by
    exact_mod_cast hlat
  have hlonq : (0 : ℚ) ≤ (randInt 0 180 d.uLon1 : ℚ) ∧ (randInt 0 180 d.uLon1 : ℚ) ≤ 180 := by
    exact_mod_cast hlon
  refine ⟨⟨?_, ?_⟩, ⟨?_, ?_⟩, ⟨randInt 0 90 d.uLat1, hlat.1, hlat.2, rfl⟩,
    ⟨randInt 0 180 d.uLon1, hlon.1, hlon.2, rfl⟩, rfl, rfl, rfl, rfl⟩
  · unfold gpsLatitudeDeg; linarith [hLat2.1]
  · unfold gpsLatitudeDeg; linarith [hLat2.2]
  · unfold gpsLongitudeDeg; linarith [hLon2.1]
  · unfold gpsLongitudeDeg; linarith [hLon2.2]

/-- C5 counterexample: with the valid draws `u₁ = 90/91` and `u₂ = 1/2`
(both in `[0, 1)`), the fabricated latitude is `90.5`, which is not in
the claimed 0–90 degree range. -/
theorem C5_latitude_counterexample :
    (0 ≤ (90 : ℚ)/91 ∧ (90 : ℚ)/91 < 1) ∧ (0 ≤ (1 : ℚ)/2 ∧ (1 : ℚ)/2 < 1) ∧
    gpsLatitudeDeg ⟨"", "", "", 90/91, 1/2, 0, 0⟩ = 181/2 ∧
    ¬ gpsLatitudeDeg ⟨"", "", "", 90/91, 1/2, 0, 0⟩ ≤ 90 := by
  have h1 : gpsLatitudeDeg ⟨"", "", "", 90/91, 1/2, 0, 0⟩ = 181/2 := by
    show (randInt 0 90 (90/91) : ℚ) + 1/2 = 181/2
    have h2 : randInt 0 90 (90/91) = 90 := by
      unfold randInt
      have h3 : ((90/91 : ℚ)) * (((90 : Int) : ℚ) - ((0 : Int) : ℚ) + 1)
          = ((90 : Int) : ℚ) := by
        push_cast
        norm_num
      rw [h3, Int.floor_intCast]
      norm_num
    rw [h2]
    norm_num
  refine ⟨⟨by norm_num, by norm_num⟩, ⟨by norm_num, by norm_num⟩, h1, ?_⟩
  rw [h1]
  norm_num

end PlaceholderForge

namespace PlaceholderForge

/-- One entry of the in-memory result list (`GenImg` in the source; the
object-URL display handle is a browser artifact and is omitted). -/
structure GenImg where
  name : String
  blob : Bytes
  exif : Option Exif
  uuid : String
  width : Int
  height : Int

/-- Everything one loop iteration obtains from the environment: the
`pickSize` draws, the short `crypto.randomUUID()` token, the background
hue draw for `randInt(0, 359)`, the EXIF draws, and the bytes the canvas
encoding (`toDataURL` + `fetch`) produces for this iteration — the last
is a browser primitive and is abstracted as an oracle value. -/
structure Draw where
  size : SizeDraw
  uuid : String
  uHue : ℚ
  exifDraw : ExifDraw
  encoded : Bytes

/-- The generated filename
`image_<index+1>_<uuid>_<width>x<height>.<ext>`. -/
def imgName (i : Nat) (uuid : String) (w h : Int) (fmt : Format) : String :=
  "image_" ++ toString (i + 1) ++ "_" ++ uuid ++ "_" ++ toString w ++ "x"
    ++ toString h ++ "." ++ fmtExt fmt

/-- The generator configuration read by `generateImages`. -/
structure Config where
  count : Nat
  format : Format
  randomSize : Bool
  width : Int
  height : Int
  withExif : Bool
  targetSize : Nat

/-- The session state the orchestrator mutates: the result list, the
`isGenerating` flag and the coarse progress index `stepIdx`. -/
structure St where
  images : List GenImg
  isGenerating : Bool
  stepIdx : Nat

/-- `estimatedImageSize = targetSize || 300 * 1024` (part_000 variant). -/
def estimatedImageSize (cfg : Config) : Nat :=
  if cfg.targetSize = 0 then 300 * 1024 else cfg.targetSize

/-- `maxCountAllowed = Math.max(1, Math.floor(MAX_RAM_BYTES / estimatedImageSize))`. -/
def maxCountAllowed (cfg : Config) : Nat :=
  max 1 (MAX_RAM_BYTES / estimatedImageSize cfg)

/-- `totalEstimatedBytes = count * estimatedImageSize`. -/
def totalEstimatedBytes (cfg : Config) : Nat :=
  cfg.count * estimatedImageSize cfg

/-- `isOverRamLimit = totalEstimatedBytes > MAX_RAM_BYTES`. -/
def isOverRamLimit (cfg : Config) : Bool :=
  totalEstimatedBytes cfg > MAX_RAM_BYTES

/-- The `watch([targetSize, count])` body: if `count > maxCountAllowed`
set `count = maxCountAllowed`. -/
def clampCount (cfg : Config) : Nat :=
  if cfg.count > maxCountAllowed cfg then maxCountAllowed cfg else cfg.count

/-- The body of one loop iteration of `generateImages` in the basic
variant (`src/app/pages/index.vue`): pick a size, build the EXIF object
when the toggle is on and the format is jpg (inserting it into the
encoded bytes through the external `piexif.insert`, passed as
`insertFn`), and assemble the `GenImg` record.  The canvas drawing
itself is a browser primitive whose output bytes are `d.encoded`. -/
def genOneB (cfg : Config) (insertFn : Exif → Bytes → Bytes) (i : Nat)
    (d : Draw) : GenImg :=
  let wh := pickSize cfg.randomSize cfg.width cfg.height d.size
  let exifObj : Option Exif :=
    if cfg.withExif = true ∧ cfg.format = Format.jpg
    then some (mkExif d.exifDraw) else none
  let blob : Bytes :=
    match exifObj with
    | some e => insertFn e d.encoded
    | none => d.encoded
  { name := imgName i d.uuid wh.1 wh.2 cfg.format
    blob := blob
    exif := exifObj
    uuid := d.uuid
    width := wh.1
    height := wh.2 }

/-- The body of one loop iteration in the part_000 variant: as in the
basic variant, then `blob = await inflateBlob(blob, targetSize)`. -/
def genOneA (cfg : Config) (insertFn : Exif → Bytes → Bytes) (i : Nat)
    (d : Draw) : GenImg :=
  let g := genOneB cfg insertFn i d
  { g with blob := inflateBlob g.blob cfg.targetSize }

/-- The list of images appended by the `for` loop of `generateImages`,
starting at index `i` with `k` iterations left; `cancel j` is the value
of `cancelRequested` observed by the check at the top of iteration `j`
(`if (cancelRequested.value) break`). -/
def runList (gen1 : Nat → Draw → GenImg) (draws : Nat → Draw)
    (cancel : Nat → Bool) : Nat → Nat → List GenImg
  | _, 0 => []
  | i, k + 1 =>
    if cancel i then []
    else gen1 i (draws i) :: runList gen1 draws cancel (i + 1) k

/-- The `for` loop of `generateImages` as a state transformer: at each
iteration check the cancellation flag (breaking if set), update
`stepIdx = Math.min(Math.floor(((i+1)/count)*10), 9)`, and push the
generated image. -/
def genLoop (countTotal : Nat) (gen1 : Nat → Draw → GenImg)
    (draws : Nat → Draw) (cancel : Nat → Bool) : Nat → Nat → St → St
  | _, 0, s => s
  | i, k + 1, s =>
    if cancel i then s
    else
      genLoop countTotal gen1 draws cancel (i + 1) k
        { images := s.images ++ [gen1 i (draws i)]
          isGenerating := s.isGenerating
          stepIdx := min ((i + 1) * 10 / countTotal) 9 }

/-- `generateImages` of the part_000 variant: return immediately when
`isOverRamLimit`; otherwise reset `stepIdx`, set `isGenerating`, clear
the result list, run the loop over `count` iterations, set `stepIdx` to
10 when the flag was never raised, and clear `isGenerating`.  The flag
value at the post-loop read `if (!cancelRequested.value)` is
`cancel count`. -/
def generateImagesA (cfg : Config) (insertFn : Exif → Bytes → Bytes)
    (draws : Nat → Draw) (cancel : Nat → Bool) (s : St) : St :=
  if isOverRamLimit cfg then s
  else
    let s1 : St := { images := [], isGenerating := true, stepIdx := 0 }
    let s2 := genLoop cfg.count (genOneA cfg insertFn) draws cancel 0 cfg.count s1
    let s3 : St := if cancel cfg.count = false then { s2 with stepIdx := 10 } else s2
    { s3 with isGenerating := false }

/-- `generateImages` of the basic variant (`src/app/pages/index.vue`):
the same loop without the RAM guard and without `inflateBlob`. -/
def generateImagesB (cfg : Config) (insertFn : Exif → Bytes → Bytes)
    (draws : Nat → Draw) (cancel : Nat → Bool) (_s : St) : St :=
  let s1 : St := { images := [], isGenerating := true, stepIdx := 0 }
  let s2 := genLoop cfg.count (genOneB cfg insertFn) draws cancel 0 cfg.count s1
  let s3 : St := if cancel cfg.count = false then { s2 with stepIdx := 10 } else s2
  { s3 with isGenerating := false }

end PlaceholderForge

namespace PlaceholderForge

/-- The loop's state after `k` iterations appends exactly `runList`. -/
lemma genLoop_images (countTotal : Nat) (gen1 : Nat → Draw → GenImg)
    (draws : Nat → Draw) (cancel : Nat → Bool) :
    ∀ k i s, (genLoop countTotal gen1 draws cancel i k s).images
      = s.images ++ runList gen1 draws cancel i k := by
  intro k
  induction k with
  | zero => intro i s; simp [genLoop, runList]
  | succ k ih =>
    intro i s
    by_cases hc : cancel i = true
    · simp [genLoop, runList, hc]
    · simp only [Bool.not_eq_true] at hc
      simp only [genLoop, runList, hc, Bool.false_eq_true, if_false]
      rw [ih]
      simp

/-- With the cancellation flag never set, the loop yields one image per
index. -/
lemma runList_noCancel (gen1 : Nat → Draw → GenImg) (draws : Nat → Draw)
    (cancel : Nat → Bool) (h : ∀ i, cancel i = false) :
    ∀ k i, runList gen1 draws cancel i k
      = (List.range' i k).map (fun j => gen1 j (draws j)) := by
  intro k
  induction k with
  | zero => intro i; simp [runList]
  | succ k ih =>
    intro i
    rw [List.range'_succ]
    simp only [runList, h i, Bool.false_eq_true, if_false, List.map_cons]
    rw [ih]

/-- With the flag first observed set at check `k`, the loop yields the
first `min kfuel (k - i)` images and then stops. -/
lemma runList_cancelFrom (gen1 : Nat → Draw → GenImg) (draws : Nat → Draw)
    (cancel : Nat → Bool) (k : Nat) (h : ∀ j, cancel j = decide (k ≤ j)) :
    ∀ kfuel i, runList gen1 draws cancel i kfuel
      = (List.range' i (min kfuel (k - i))).map (fun j => gen1 j (draws j)) := by
  intro kfuel
  induction kfuel with
  | zero => intro i; simp [runList]
  | succ kf ih =>
    intro i
    by_cases hik : k ≤ i
    · have hmin : min (kf + 1) (k - i) = 0 := by omega
      have hcancel : cancel i = true := by rw [h i]; simpa using hik
      rw [hmin]
      simp [runList, hcancel]
    · have hcancel : cancel i = false := by rw [h i]; simpa using hik
      have hmin : min (kf + 1) (k - i) = min kf (k - (i + 1)) + 1 := by omega
      rw [hmin, List.range'_succ]
      simp only [runList, hcancel, Bool.false_eq_true, if_false, List.map_cons]
      rw [ih]

/-- Every image the loop appends is the generation body applied at some
index and its draw. -/
lemma runList_mem (gen1 : Nat → Draw → GenImg) (draws : Nat → Draw)
    (cancel : Nat → Bool) :
    ∀ k i img, img ∈ runList gen1 draws cancel i k
      → ∃ j, img = gen1 j (draws j) := by
  intro k
  induction k with
  | zero => intro i img hmem; simp [runList] at hmem
  | succ k ih =>
    intro i img hmem
    by_cases hc : cancel i = true
    · simp [runList, hc] at hmem
    · simp only [Bool.not_eq_true] at hc
      simp only [runList, hc, Bool.false_eq_true, if_false, List.mem_cons] at hmem
      rcases hmem with hmem | hmem
      · exact ⟨i, hmem⟩
      · exact ih (i + 1) img hmem

/-- When the RAM guard passes, the part_000 `generateImages` leaves
exactly the loop's images in the result list. -/
lemma generateImagesA_images (cfg : Config) (insertFn : Exif → Bytes → Bytes)
    (draws : Nat → Draw) (cancel : Nat → Bool) (s : St)
    (hRam : isOverRamLimit cfg = false) :
    (generateImagesA cfg insertFn draws cancel s).images
      = runList (genOneA cfg insertFn) draws cancel 0 cfg.count := by
  unfold generateImagesA
  rw [hRam]
  by_cases hc : cancel cfg.count = false <;>
    simp [hc, genLoop_images]

/-- The basic `generateImages` leaves exactly the loop's images in the
result list. -/
lemma generateImagesB_images (cfg : Config) (insertFn : Exif → Bytes → Bytes)
    (draws : Nat → Draw) (cancel : Nat → Bool) (s : St) :
    (generateImagesB cfg insertFn draws cancel s).images
      = runList (genOneB cfg insertFn) draws cancel 0 cfg.count := by
  unfold generateImagesB
  by_cases hc : cancel cfg.count = false <;>
    simp [hc, genLoop_images]

/-- The EXIF field of a generated image, in both variants. -/
lemma genOne_exif (cfg : Config) (insertFn : Exif → Bytes → Bytes) (i : Nat)
    (d : Draw) :
    (genOneA cfg insertFn i d).exif
        = (if cfg.withExif = true ∧ cfg.format = Format.jpg
           then some (mkExif d.exifDraw) else none) ∧
    (genOneB cfg insertFn i d).exif
        = (if cfg.withExif = true ∧ cfg.format = Format.jpg
           then some (mkExif d.exifDraw) else none) := by
  constructor <;> rfl

end PlaceholderForge

namespace PlaceholderForge

/-- C1: in both variants, every generated item's EXIF block is non-null
exactly when the format is jpg and the EXIF toggle is on; for png it is
null regardless of the toggle. -/
theorem C1_exif_presence (cfg : Config) (insertFn : Exif → Bytes → Bytes)
    (draws : Nat → Draw) (cancel : Nat → Bool) (s : St)
    (hRam : isOverRamLimit cfg = false) :
    (∀ img ∈ (generateImagesA cfg insertFn draws cancel s).images,
      (img.exif.isSome = true ↔ cfg.format = Format.jpg ∧ cfg.withExif = true) ∧
      (cfg.format = Format.png → img.exif = none)) ∧
    (∀ img ∈ (generateImagesB cfg insertFn draws cancel s).images,
      (img.exif.isSome = true ↔ cfg.format = Format.jpg ∧ cfg.withExif = true) ∧
      (cfg.format = Format.png → img.exif = none)) := by
  have key : ∀ i d, ∀ g ∈ [genOneA cfg insertFn i d, genOneB cfg insertFn i d],
      (g.exif.isSome = true ↔ cfg.format = Format.jpg ∧ cfg.withExif = true) ∧
      (cfg.format = Format.png → g.exif = none) := by
    intro i d g hg
    have hex := genOne_exif cfg insertFn i d
    have hgex : g.exif = (if cfg.withExif = true ∧ cfg.format = Format.jpg
        then some (mkExif d.exifDraw) else none) := by
      simp only [List.mem_cons, List.mem_singleton] at hg
      rcases hg with hg | hg | hg
      · rw [hg]; exact hex.1
      · rw [hg]; exact hex.2
      · simp at hg
    rw [hgex]
    by_cases h : cfg.withExif = true ∧ cfg.format = Format.jpg
    · rw [if_pos h]
      refine ⟨⟨fun _ => ⟨h.2, h.1⟩, fun _ => rfl⟩, ?_⟩
      intro hpng
      rw [h.2] at hpng
      simp at hpng
    · rw [if_neg h]
      refine ⟨⟨?_, ?_⟩, fun _ => rfl⟩
      · intro hfalse
        simp at hfalse
      · rintro ⟨hj, hw⟩
        exact absurd ⟨hw, hj⟩ h
  constructor
  · intro img hmem
    rw [generateImagesA_images cfg insertFn draws cancel s hRam] at hmem
    obtain ⟨j, hj⟩ := runList_mem _ _ _ _ _ _ hmem
    rw [hj]
    exact key j (draws j) _ (by simp)
  · intro img hmem
    rw [generateImagesB_images cfg insertFn draws cancel s] at hmem
    obtain ⟨j, hj⟩ := runList_mem _ _ _ _ _ _ hmem
    rw [hj]
    exact key j (draws j) _ (by simp)

end PlaceholderForge

namespace PlaceholderForge

/-- C3: in both variants, for every requested count `N ≥ 1`, if the
cancellation flag is never set the run produces exactly `N` entries, in
generation order (entry `j` is the body applied at index `j`, and its
name carries the 1-based index `j + 1`). -/
theorem C3_full_run (cfg : Config) (insertFn : Exif → Bytes → Bytes)
    (draws : Nat → Draw) (cancel : Nat → Bool) (s : St)
    (_hN : 1 ≤ cfg.count) (hc : ∀ i, cancel i = false)
    (hRam : isOverRamLimit cfg = false) :
    ((generateImagesA cfg insertFn draws cancel s).images.length = cfg.count ∧
     (generateImagesA cfg insertFn draws cancel s).images
        = (List.range cfg.count).map (fun j => genOneA cfg insertFn j (draws j))) ∧
    ((generateImagesB cfg insertFn draws cancel s).images.length = cfg.count ∧
     (generateImagesB cfg insertFn draws cancel s).images
        = (List.range cfg.count).map (fun j => genOneB cfg insertFn j (draws j))) ∧
    (∀ j, j < cfg.count → ∃ rest,
      (genOneA cfg insertFn j (draws j)).name
          = "image_" ++ toString (j + 1) ++ "_" ++ rest ∧
      (genOneB cfg insertFn j (draws j)).name
          = "image_" ++ toString (j + 1) ++ "_" ++ rest) := by
  have hA : (generateImagesA cfg insertFn draws cancel s).images
      = (List.range cfg.count).map (fun j => genOneA cfg insertFn j (draws j)) := by
    rw [generateImagesA_images cfg insertFn draws cancel s hRam,
      runList_noCancel _ _ _ hc, List.range_eq_range']
  have hB : (generateImagesB cfg insertFn draws cancel s).images
      = (List.range cfg.count).map (fun j => genOneB cfg insertFn j (draws j)) := by
    rw [generateImagesB_images cfg insertFn draws cancel s,
      runList_noCancel _ _ _ hc, List.range_eq_range']
  refine ⟨⟨?_, hA⟩, ⟨?_, hB⟩, ?_⟩
  · rw [hA]; simp
  · rw [hB]; simp
  · intro j _
    refine ⟨(draws j).uuid ++ "_"
        ++ toString (pickSize cfg.randomSize cfg.width cfg.height (draws j).size).1
        ++ "x" ++ toString (pickSize cfg.randomSize cfg.width cfg.height (draws j).size).2
        ++ "." ++ fmtExt cfg.format, ?_, ?_⟩ <;>
      simp [genOneA, genOneB, imgName, String.append_assoc]

/-- C4: in both variants, if the cancellation flag is first observed set
at the check after `k` completed units (`k < N`), the loop stops there
and the result list holds exactly the `k` entries already generated,
retained in order. -/
theorem C4_cancel_stops_loop (cfg : Config) (insertFn : Exif → Bytes → Bytes)
    (draws : Nat → Draw) (cancel : Nat → Bool) (s : St) (k : Nat)
    (hk : k < cfg.count) (hc : ∀ j, cancel j = decide (k ≤ j))
    (hRam : isOverRamLimit cfg = false) :
    ((generateImagesA cfg insertFn draws cancel s).images.length = k ∧
     (generateImagesA cfg insertFn draws cancel s).images
        = (List.range k).map (fun j => genOneA cfg insertFn j (draws j))) ∧
    ((generateImagesB cfg insertFn draws cancel s).images.length = k ∧
     (generateImagesB cfg insertFn draws cancel s).images
        = (List.range k).map (fun j => genOneB cfg insertFn j (draws j))) := by
  have hmin : min cfg.count (k - 0) = k := by omega
  have hA : (generateImagesA cfg insertFn draws cancel s).images
      = (List.range k).map (fun j => genOneA cfg insertFn j (draws j)) := by
    rw [generateImagesA_images cfg insertFn draws cancel s hRam,
      runList_cancelFrom _ _ _ k hc, hmin, List.range_eq_range']
  have hB : (generateImagesB cfg insertFn draws cancel s).images
      = (List.range k).map (fun j => genOneB cfg insertFn j (draws j)) := by
    rw [generateImagesB_images cfg insertFn draws cancel s,
      runList_cancelFrom _ _ _ k hc, hmin, List.range_eq_range']
  exact ⟨⟨by rw [hA]; simp, hA⟩, ⟨by rw [hB]; simp, hB⟩⟩

/-- C7: in the part_000 variant, when the estimated footprint exceeds the
500 MB ceiling, `generateImages` returns before touching any state: the
result list, the generating flag and the progress index are unchanged. -/
theorem C7_overlimit_rejected (cfg : Config) (insertFn : Exif → Bytes → Bytes)
    (draws : Nat → Draw) (cancel : Nat → Bool) (s : St)
    (h : isOverRamLimit cfg = true) :
    generateImagesA cfg insertFn draws cancel s = s ∧
    (generateImagesA cfg insertFn draws cancel s).images = s.images ∧
    (generateImagesA cfg insertFn draws cancel s).isGenerating = s.isGenerating ∧
    (generateImagesA cfg insertFn draws cancel s).stepIdx = s.stepIdx := by
  have he : generateImagesA cfg insertFn draws cancel s = s := by
    unfold generateImagesA
    rw [h]
    simp
  exact ⟨he, by rw [he], by rw [he], by rw [he]⟩

end PlaceholderForge

namespace PlaceholderForge

/-- The watcher's clamped count never exceeds `maxCountAllowed`. -/
lemma clampCount_le (cfg : Config) : clampCount cfg ≤ maxCountAllowed cfg := by
  unfold clampCount
  split <;> omega

/-- When one estimated image fits the ceiling, the clamped footprint
fits the ceiling. -/
lemma clamp_total_le (cfg : Config) (hpos : 0 < estimatedImageSize cfg)
    (hle : estimatedImageSize cfg ≤ MAX_RAM_BYTES) :
    totalEstimatedBytes { cfg with count := clampCount cfg } ≤ MAX_RAM_BYTES := by
  have h1 : clampCount cfg ≤ maxCountAllowed cfg := clampCount_le cfg
  have h2 : maxCountAllowed cfg = MAX_RAM_BYTES / estimatedImageSize cfg := by
    unfold maxCountAllowed
    have := (Nat.one_le_div_iff hpos).mpr hle
    omega
  have hest : estimatedImageSize { cfg with count := clampCount cfg }
      = estimatedImageSize cfg := rfl
  show clampCount cfg * estimatedImageSize { cfg with count := clampCount cfg }
      ≤ MAX_RAM_BYTES
  rw [hest]
  calc clampCount cfg * estimatedImageSize cfg
      ≤ (MAX_RAM_BYTES / estimatedImageSize cfg) * estimatedImageSize cfg := by
        apply Nat.mul_le_mul_right
        omega
    _ ≤ MAX_RAM_BYTES := Nat.div_mul_le_self _ _

/-- C10: in the part_000 variant, after the watcher has clamped `count`
to `maxCountAllowed`, every target size on the offered menu keeps the
estimated footprint within the 500 MB ceiling, so the over-limit
rejection branch of `generateImages` cannot fire. -/
theorem C10_watch_makes_limit_unreachable (cfg : Config)
    (ht : cfg.targetSize ∈ targetSizeItems) :
    totalEstimatedBytes { cfg with count := clampCount cfg } ≤ MAX_RAM_BYTES ∧
    isOverRamLimit { cfg with count := clampCount cfg } = false := by
  have hbound : 0 < estimatedImageSize cfg ∧ estimatedImageSize cfg ≤ MAX_RAM_BYTES := by
    simp only [targetSizeItems, List.mem_cons, List.not_mem_nil, or_false] at ht
    rcases ht with h | h | h | h <;>
      norm_num [estimatedImageSize, h, MAX_RAM_BYTES]
  have hle := clamp_total_le cfg hbound.1 hbound.2
  refine ⟨hle, ?_⟩
  simp only [isOverRamLimit]
  exact decide_eq_false (by omega)

end PlaceholderForge

namespace PlaceholderForge

/-- Modelled from the spec: the byte-level splice performed by
`piexif.insert(piexif.dump(exifObj), dataURL)` belongs to the external
piexifjs library, not to this repository.  The spec describes it as "the
metadata block is serialized and spliced into the encoded image bytes"
with "header-level insertion only".  A JPEG file is modelled as its
marker segments (header) followed by the entropy-coded scan — the pixel
data. -/
structure Jpeg where
  headerSegments : List (Nat × Bytes)
  scanData : Bytes

/-- The APP1 marker byte under which EXIF payloads are stored. -/
def APP1 : Nat := 0xE1

/-- Modelled from the spec: inserting the serialized EXIF payload places
one APP1 segment among the header segments, replacing any EXIF segment
already present, and does not touch the scan data. -/
def piexifInsert (exifPayload : Bytes) (img : Jpeg) : Jpeg :=
  { headerSegments :=
      (APP1, exifPayload) :: img.headerSegments.filter (fun seg => seg.1 ≠ APP1)
    scanData := img.scanData }

/-- C9: splicing the serialized metadata into the encoded bytes is
header-level only — the pixel (scan) data is byte-for-byte unchanged,
and every non-EXIF header segment is preserved in order. -/
theorem C9_insert_preserves_pixels (exifPayload : Bytes) (img : Jpeg) :
    (piexifInsert exifPayload img).scanData = img.scanData ∧
    (piexifInsert exifPayload img).headerSegments.filter (fun seg => seg.1 ≠ APP1)
      = img.headerSegments.filter (fun seg => seg.1 ≠ APP1) ∧
    (piexifInsert exifPayload img).headerSegments.head? = some (APP1, exifPayload) := by
  refine ⟨rfl, ?_, rfl⟩
  simp [piexifInsert, List.filter_filter]

end PlaceholderForge

namespace PlaceholderForge

/-- Modelled from the spec: `zip.file(name, blob)` belongs to the
external JSZip library, not to this repository.  The spec says the
archive "contains each item under its generated name"; storing a name
that is already present replaces that entry (JSZip semantics), otherwise
the entry is appended. -/
def zipFile (entries : List (String × Bytes)) (name : String)
    (data : Bytes) : List (String × Bytes) :=
  if entries.any (fun e => e.1 = name)
  then entries.map (fun e => if e.1 = name then (name, data) else e)
  else entries ++ [(name, data)]

/-- `downloadZip`: `images.value.forEach((i) => zip.file(i.name, i.blob))`,
yielding the archive's entry list. -/
def downloadZip (images : List GenImg) : List (String × Bytes) :=
  images.foldl (fun z img => zipFile z img.name img.blob) []

/-- Folding `zipFile` over items whose names are fresh appends them in
order. -/
lemma downloadZip_go (images : List GenImg) :
    ∀ acc : List (String × Bytes),
      (∀ img ∈ images, ∀ e ∈ acc, e.1 ≠ img.name) →
      (images.map (fun img => img.name)).Nodup →
      images.foldl (fun z img => zipFile z img.name img.blob) acc
        = acc ++ images.map (fun img => (img.name, img.blob)) := by
  induction images with
  | nil => intro acc _ _; simp
  | cons img rest ih =>
    intro acc hdisj hnd
    have hfresh : ¬ (acc.any (fun e => e.1 = img.name) = true) := by
      rw [List.any_eq_true]
      rintro ⟨e, hmem, he⟩
      simp only [decide_eq_true_eq] at he
      exact hdisj img (by simp) e hmem he
    have hstep : zipFile acc img.name img.blob = acc ++ [(img.name, img.blob)] := by
      unfold zipFile
      rw [if_neg hfresh]
    simp only [List.foldl_cons, hstep]
    rw [ih (acc ++ [(img.name, img.blob)]) ?_ ?_]
    · simp
    · intro img2 hmem2 e hmem3
      rcases List.mem_append.mp hmem3 with he | he
      · exact hdisj img2 (by simp [hmem2]) e he
      · simp only [List.mem_singleton] at he
        rw [he]
        simp only [List.map_cons, List.nodup_cons] at hnd
        intro hcontra
        have hname : img.name = img2.name := hcontra
        apply hnd.1
        rw [hname]
        exact List.mem_map_of_mem (fun i => i.name) hmem2
    · simp only [List.map_cons, List.nodup_cons] at hnd
      exact hnd.2

/-- C8: whenever the currently-held items have pairwise-distinct
generated names — as every list produced by a generation run does — the
archive holds exactly one entry per item, under that item's name, with
byte-identical content, and nothing else. -/
theorem C8_zip_exact (images : List GenImg)
    (hnd : (images.map (fun img => img.name)).Nodup) :
    downloadZip images = images.map (fun img => (img.name, img.blob)) ∧
    (downloadZip images).length = images.length := by
  have h := downloadZip_go images [] (by intro img _ e he; simp at he) hnd
  unfold downloadZip
  rw [h]
  simp

end PlaceholderForge

namespace PlaceholderForge

/-- A concrete size draw used by the closed witnesses. -/
def sampleSizeDraw : SizeDraw := ⟨3/4, 1/2, 1/2, 1/2⟩

/-- A concrete EXIF draw used by the closed witnesses. -/
def sampleExifDraw : ExifDraw :=
  ⟨"Acme Corp", "Widget 9000", "2025-01-01 00:00:00", 1/2, 1/2, 1/2, 1/2⟩

/-- A concrete per-iteration draw used by the closed witnesses. -/
def sampleDraw : Draw := ⟨sampleSizeDraw, "abcd1234", 1/2, sampleExifDraw, [1, 2, 3]⟩

/-- A draw oracle that always returns the sample draw. -/
def sampleDraws : Nat → Draw := fun _ => sampleDraw

/-- A cancellation schedule that is never set. -/
def sampleCancel : Nat → Bool := fun _ => false

/-- A cancellation schedule first observed set at check 2. -/
def sampleCancelAt2 : Nat → Bool := fun i => decide (2 ≤ i)

/-- A pass-through stand-in for the external EXIF byte splice. -/
def sampleInsert : Exif → Bytes → Bytes := fun _ b => b

/-- A concrete configuration (count 3, jpg, fixed 640×480, EXIF on,
auto target size) that passes the RAM guard. -/
def sampleCfg : Config := ⟨3, Format.jpg, false, 640, 480, true, 0⟩

/-- A concrete configuration whose estimated footprint (51 × 10 MB)
exceeds the 500 MB ceiling. -/
def overCfg : Config := ⟨51, Format.jpg, false, 100, 100, false, 10 * 1024 * 1024⟩

/-- An empty session state. -/
def sampleSt : St := ⟨[], false, 0⟩

/-- Witness for C6 at the sample draw. -/
theorem C6_pickSize_bounds_witness :
    ((0 ≤ sampleSizeDraw.uIdx ∧ sampleSizeDraw.uIdx < 1) ∧
     (0 ≤ sampleSizeDraw.uOffW ∧ sampleSizeDraw.uOffW < 1) ∧
     (0 ≤ sampleSizeDraw.uOffH ∧ sampleSizeDraw.uOffH < 1)) ∧
    (pickSize false 800 600 sampleSizeDraw = (800, 600) ∧
     ∃ base ∈ chosenSizes sampleSizeDraw,
       pickSize true 100 200 sampleSizeDraw
         = (base.1 + randomOffset sampleSizeDraw.uOffW,
            base.2 + randomOffset sampleSizeDraw.uOffH) ∧
       base.1 - 50 ≤ (pickSize true 100 200 sampleSizeDraw).1 ∧
       (pickSize true 100 200 sampleSizeDraw).1 ≤ base.1 + 50 ∧
       base.2 - 50 ≤ (pickSize true 100 200 sampleSizeDraw).2 ∧
       (pickSize true 100 200 sampleSizeDraw).2 ≤ base.2 + 50) :=
  ⟨⟨⟨by norm_num [sampleSizeDraw], by norm_num [sampleSizeDraw]⟩,
    ⟨by norm_num [sampleSizeDraw], by norm_num [sampleSizeDraw]⟩,
    ⟨by norm_num [sampleSizeDraw], by norm_num [sampleSizeDraw]⟩⟩,
   C6_pickSize_bounds 100 200 sampleSizeDraw
     (by norm_num [sampleSizeDraw]) (by norm_num [sampleSizeDraw])
     (by norm_num [sampleSizeDraw]) (by norm_num [sampleSizeDraw])
     (by norm_num [sampleSizeDraw]) (by norm_num [sampleSizeDraw])⟩

/-- Witness for C5 at the sample EXIF draw. -/
theorem C5_gps_ranges_witness :
    ((0 ≤ sampleExifDraw.uLat1 ∧ sampleExifDraw.uLat1 < 1) ∧
     (0 ≤ sampleExifDraw.uLat2 ∧ sampleExifDraw.uLat2 < 1) ∧
     (0 ≤ sampleExifDraw.uLon1 ∧ sampleExifDraw.uLon1 < 1) ∧
     (0 ≤ sampleExifDraw.uLon2 ∧ sampleExifDraw.uLon2 < 1)) ∧
    ((0 ≤ gpsLatitudeDeg sampleExifDraw ∧ gpsLatitudeDeg sampleExifDraw < 91) ∧
     (0 ≤ gpsLongitudeDeg sampleExifDraw ∧ gpsLongitudeDeg sampleExifDraw < 181) ∧
     (∃ n : Int, 0 ≤ n ∧ n ≤ 90 ∧
        gpsLatitudeDeg sampleExifDraw = (n : ℚ) + sampleExifDraw.uLat2) ∧
     (∃ n : Int, 0 ≤ n ∧ n ≤ 180 ∧
        gpsLongitudeDeg sampleExifDraw = (n : ℚ) + sampleExifDraw.uLon2) ∧
     (mkExif sampleExifDraw).gpsLatitudeRef = "N" ∧
     (mkExif sampleExifDraw).gpsLatitude
        = degToDmsRational (gpsLatitudeDeg sampleExifDraw) ∧
     (mkExif sampleExifDraw).gpsLongitudeRef = "E" ∧
     (mkExif sampleExifDraw).gpsLongitude
        = degToDmsRational (gpsLongitudeDeg sampleExifDraw)) :=
  ⟨⟨⟨by norm_num [sampleExifDraw], by norm_num [sampleExifDraw]⟩,
    ⟨by norm_num [sampleExifDraw], by norm_num [sampleExifDraw]⟩,
    ⟨by norm_num [sampleExifDraw], by norm_num [sampleExifDraw]⟩,
    ⟨by norm_num [sampleExifDraw], by norm_num [sampleExifDraw]⟩⟩,
   C5_gps_ranges sampleExifDraw
     ⟨by norm_num [sampleExifDraw], by norm_num [sampleExifDraw]⟩
     ⟨by norm_num [sampleExifDraw], by norm_num [sampleExifDraw]⟩
     ⟨by norm_num [sampleExifDraw], by norm_num [sampleExifDraw]⟩
     ⟨by norm_num [sampleExifDraw], by norm_num [sampleExifDraw]⟩⟩

end PlaceholderForge

namespace PlaceholderForge

/-- Witness for C1 at the sample configuration. -/
theorem C1_exif_presence_witness :
    isOverRamLimit sampleCfg = false ∧
    ((∀ img ∈ (generateImagesA sampleCfg sampleInsert sampleDraws sampleCancel sampleSt).images,
       (img.exif.isSome = true ↔ sampleCfg.format = Format.jpg ∧ sampleCfg.withExif = true) ∧
       (sampleCfg.format = Format.png → img.exif = none)) ∧
     (∀ img ∈ (generateImagesB sampleCfg sampleInsert sampleDraws sampleCancel sampleSt).images,
       (img.exif.isSome = true ↔ sampleCfg.format = Format.jpg ∧ sampleCfg.withExif = true) ∧
       (sampleCfg.format = Format.png → img.exif = none))) :=
  ⟨by decide,
   C1_exif_presence sampleCfg sampleInsert sampleDraws sampleCancel sampleSt (by decide)⟩

/-- Witness for C3 at the sample configuration (count 3, never
cancelled). -/
theorem C3_full_run_witness :
    (1 ≤ sampleCfg.count ∧ (∀ i, sampleCancel i = false) ∧
     isOverRamLimit sampleCfg = false) ∧
    (((generateImagesA sampleCfg sampleInsert sampleDraws sampleCancel sampleSt).images.length
        = sampleCfg.count ∧
      (generateImagesA sampleCfg sampleInsert sampleDraws sampleCancel sampleSt).images
        = (List.range sampleCfg.count).map
            (fun j => genOneA sampleCfg sampleInsert j (sampleDraws j))) ∧
     ((generateImagesB sampleCfg sampleInsert sampleDraws sampleCancel sampleSt).images.length
        = sampleCfg.count ∧
      (generateImagesB sampleCfg sampleInsert sampleDraws sampleCancel sampleSt).images
        = (List.range sampleCfg.count).map
            (fun j => genOneB sampleCfg sampleInsert j (sampleDraws j))) ∧
     (∀ j, j < sampleCfg.count → ∃ rest,
       (genOneA sampleCfg sampleInsert j (sampleDraws j)).name
           = "image_" ++ toString (j + 1) ++ "_" ++ rest ∧
       (genOneB sampleCfg sampleInsert j (sampleDraws j)).name
           = "image_" ++ toString (j + 1) ++ "_" ++ rest)) :=
  ⟨⟨by decide, fun _ => rfl, by decide⟩,
   C3_full_run sampleCfg sampleInsert sampleDraws sampleCancel sampleSt
     (by decide) (fun _ => rfl) (by decide)⟩

/-- Witness for C4 at the sample configuration, cancelling after 2 of 3
units. -/
theorem C4_cancel_stops_loop_witness :
    (2 < sampleCfg.count ∧ (∀ j, sampleCancelAt2 j = decide (2 ≤ j)) ∧
     isOverRamLimit sampleCfg = false) ∧
    (((generateImagesA sampleCfg sampleInsert sampleDraws sampleCancelAt2 sampleSt).images.length
        = 2 ∧
      (generateImagesA sampleCfg sampleInsert sampleDraws sampleCancelAt2 sampleSt).images
        = (List.range 2).map
            (fun j => genOneA sampleCfg sampleInsert j (sampleDraws j))) ∧
     ((generateImagesB sampleCfg sampleInsert sampleDraws sampleCancelAt2 sampleSt).images.length
        = 2 ∧
      (generateImagesB sampleCfg sampleInsert sampleDraws sampleCancelAt2 sampleSt).images
        = (List.range 2).map
            (fun j => genOneB sampleCfg sampleInsert j (sampleDraws j)))) :=
  ⟨⟨by decide, fun _ => rfl, by decide⟩,
   C4_cancel_stops_loop sampleCfg sampleInsert sampleDraws sampleCancelAt2 sampleSt 2
     (by decide) (fun _ => rfl) (by decide)⟩

/-- Witness for C7 at a configuration estimated at 51 × 10 MB. -/
theorem C7_overlimit_rejected_witness :
    isOverRamLimit overCfg = true ∧
    (generateImagesA overCfg sampleInsert sampleDraws sampleCancel sampleSt = sampleSt ∧
     (generateImagesA overCfg sampleInsert sampleDraws sampleCancel sampleSt).images
        = sampleSt.images ∧
     (generateImagesA overCfg sampleInsert sampleDraws sampleCancel sampleSt).isGenerating
        = sampleSt.isGenerating ∧
     (generateImagesA overCfg sampleInsert sampleDraws sampleCancel sampleSt).stepIdx
        = sampleSt.stepIdx) :=
  ⟨by decide,
   C7_overlimit_rejected overCfg sampleInsert sampleDraws sampleCancel sampleSt (by decide)⟩

/-- Witness for C10 at the sample configuration (target size Auto). -/
theorem C10_watch_makes_limit_unreachable_witness :
    sampleCfg.targetSize ∈ targetSizeItems ∧
    (totalEstimatedBytes { sampleCfg with count := clampCount sampleCfg } ≤ MAX_RAM_BYTES ∧
     isOverRamLimit { sampleCfg with count := clampCount sampleCfg } = false) :=
  ⟨by decide,
   C10_watch_makes_limit_unreachable sampleCfg (by decide)⟩

end PlaceholderForge

namespace PlaceholderForge

/-- A first concrete held item used by the C8 witness. -/
def sampleImgA : GenImg := ⟨"image_1_aaaa_640x480.jpg", [1, 2], none, "aaaa", 640, 480⟩

/-- A second concrete held item used by the C8 witness. -/
def sampleImgB : GenImg := ⟨"image_2_bbbb_640x480.jpg", [3], none, "bbbb", 640, 480⟩

/-- Witness for C8 at a concrete two-item result list. -/
theorem C8_zip_exact_witness :
    (([sampleImgA, sampleImgB].map (fun img => img.name)).Nodup) ∧
    (downloadZip [sampleImgA, sampleImgB]
        = [sampleImgA, sampleImgB].map (fun img => (img.name, img.blob)) ∧
     (downloadZip [sampleImgA, sampleImgB]).length
        = [sampleImgA, sampleImgB].length) :=
  ⟨by decide,
   C8_zip_exact [sampleImgA, sampleImgB] (by decide)⟩

end PlaceholderForge
